import Mathlib

/-!
Verification development for the CryptoChat repository.

The Rust sources are shallowly embedded: byte strings are lists of naturals
(each element below 256), Rust Result values are Except, fallible external
library primitives (OpenPGP, Argon2, AES-GCM) are parameters constrained by
their documented contracts, and deterministic library primitives (base64,
SHA-256, the ChaCha20 keystream) are implemented directly.
-/

namespace CryptoChat

/-! ## Base64 (the base64 crate, STANDARD and STANDARD_NO_PAD engines)

Byte strings and the encoded text are both lists of naturals (ASCII codes).
-/

/-- Character of the RFC 4648 standard alphabet for a 6-bit value. -/
def sextetChar (n : Nat) : Nat :=
  if n < 26 then 65 + n
  else if n < 52 then 97 + (n - 26)
  else if n < 62 then 48 + (n - 52)
  else if n = 62 then 43
  else 47

/-- Inverse of the standard alphabet: 6-bit value of an ASCII code. -/
def charSextet (c : Nat) : Option Nat :=
  if 65 ≤ c ∧ c ≤ 90 then some (c - 65)
  else if 97 ≤ c ∧ c ≤ 122 then some (c - 97 + 26)
  else if 48 ≤ c ∧ c ≤ 57 then some (c - 48 + 52)
  else if c = 43 then some 62
  else if c = 47 then some 63
  else none

/-- Base64-encode a byte string; pad selects the STANDARD engine (with the
61 = ASCII equals-sign padding) versus STANDARD_NO_PAD. -/
def b64Encode (pad : Bool) : List Nat → List Nat
  | a :: b :: c :: rest =>
      sextetChar (a / 4) :: sextetChar (a % 4 * 16 + b / 16) ::
      sextetChar (b % 16 * 4 + c / 64) :: sextetChar (c % 64) :: b64Encode pad rest
  | [a, b] =>
      sextetChar (a / 4) :: sextetChar (a % 4 * 16 + b / 16) ::
      sextetChar (b % 16 * 4) :: (if pad then [61] else [])
  | [a] =>
      sextetChar (a / 4) :: sextetChar (a % 4 * 16) :: (if pad then [61, 61] else [])
  | [] => []

/-- Base64-decode; mirrors the crate's strict default configuration: canonical
padding for the STANDARD engine, no padding characters for STANDARD_NO_PAD,
and non-zero trailing bits rejected. -/
def b64Decode (pad : Bool) : List Nat → Option (List Nat)
  | [] => some []
  | c1 :: c2 :: c3 :: c4 :: rest =>
    match charSextet c1, charSextet c2 with
    | some s1, some s2 =>
      if c3 = 61 then
        if pad ∧ c4 = 61 ∧ rest = [] ∧ s2 % 16 = 0 then some [s1 * 4 + s2 / 16] else none
      else
        match charSextet c3 with
        | some s3 =>
          if c4 = 61 then
            if pad ∧ rest = [] ∧ s3 % 4 = 0 then
              some [s1 * 4 + s2 / 16, s2 % 16 * 16 + s3 / 4]
            else none
          else
            match charSextet c4 with
            | some s4 =>
              match b64Decode pad rest with
              | some bs =>
                some ((s1 * 4 + s2 / 16) :: (s2 % 16 * 16 + s3 / 4) :: (s3 % 4 * 64 + s4) :: bs)
              | none => none
            | none => none
        | none => none
    | _, _ => none
  | [c1, c2] =>
    if pad then none else
    match charSextet c1, charSextet c2 with
    | some s1, some s2 => if s2 % 16 = 0 then some [s1 * 4 + s2 / 16] else none
    | _, _ => none
  | [c1, c2, c3] =>
    if pad then none else
    match charSextet c1, charSextet c2, charSextet c3 with
    | some s1, some s2, some s3 =>
      if s3 % 4 = 0 then some [s1 * 4 + s2 / 16, s2 % 16 * 16 + s3 / 4] else none
    | _, _, _ => none
  | [_] => none

theorem charSextet_sextetChar : ∀ s < 64, charSextet (sextetChar s) = some s := by decide

theorem sextetChar_ne_61 : ∀ s < 64, sextetChar s ≠ 61 := by decide

/-- Decoding inverts encoding on genuine byte strings, for both engines. -/
theorem b64Decode_b64Encode (pad : Bool) (bs : List Nat) (h : ∀ b ∈ bs, b < 256) :
    b64Decode pad (b64Encode pad bs) = some bs := by
  match bs with
  | [] => cases pad <;> simp [b64Encode, b64Decode]
  | [a] =>
    have ha : a < 256 := h a (by simp)
    have h1 : a / 4 < 64 := by omega
    have h2 : a % 4 * 16 < 64 := by omega
    have e0 : a % 4 * 16 % 16 = 0 := by omega
    have e1 : a / 4 * 4 + a % 4 * 16 / 16 = a := by omega
    cases pad <;>
        simp [b64Encode, b64Decode, charSextet_sextetChar _ h1, charSextet_sextetChar _ h2,
          e0, e1] <;>
      omega
  | [a, b] =>
    have ha : a < 256 := h a (by simp)
    have hb : b < 256 := h b (by simp)
    have h1 : a / 4 < 64 := by omega
    have h2 : a % 4 * 16 + b / 16 < 64 := by omega
    have h3 : b % 16 * 4 < 64 := by omega
    have e0 : b % 16 * 4 % 4 = 0 := by omega
    have e1 : a / 4 * 4 + (a % 4 * 16 + b / 16) / 16 = a := by omega
    have e2 : (a % 4 * 16 + b / 16) % 16 * 16 + b % 16 * 4 / 4 = b := by omega
    cases pad <;>
        simp [b64Encode, b64Decode, charSextet_sextetChar _ h1, charSextet_sextetChar _ h2,
          charSextet_sextetChar _ h3, sextetChar_ne_61 _ h3, e0, e1, e2] <;>
      omega
  | a :: b :: c :: rest =>
    have ha : a < 256 := h a (by simp)
    have hb : b < 256 := h b (by simp)
    have hc : c < 256 := h c (by simp)
    have h1 : a / 4 < 64 := by omega
    have h2 : a % 4 * 16 + b / 16 < 64 := by omega
    have h3 : b % 16 * 4 + c / 64 < 64 := by omega
    have h4 : c % 64 < 64 := by omega
    have e1 : a / 4 * 4 + (a % 4 * 16 + b / 16) / 16 = a := by omega
    have e2 : (a % 4 * 16 + b / 16) % 16 * 16 + (b % 16 * 4 + c / 64) / 4 = b := by omega
    have e3 : (b % 16 * 4 + c / 64) % 4 * 64 + c % 64 = c := by omega
    have ih := b64Decode_b64Encode pad rest (fun x hx => h x (by simp [hx]))
    simp [b64Encode, b64Decode, charSextet_sextetChar _ h1, charSextet_sextetChar _ h2,
      charSextet_sextetChar _ h3, charSextet_sextetChar _ h4, sextetChar_ne_61 _ h3,
      sextetChar_ne_61 _ h4, e1, e2, e3, ih]
termination_by bs.length

/-! ## SHA-256 (the sha2 crate) -/

/-- Big-endian byte serialization of a natural, k bytes. -/
def beBytes (k n : Nat) : List Nat :=
  (List.range k).map (fun i => n / 2 ^ (8 * (k - 1 - i)) % 256)

/-- Little-endian byte serialization of a natural, k bytes (usize to_le_bytes). -/
def leBytes (k n : Nat) : List Nat :=
  (List.range k).map (fun i => n / 2 ^ (8 * i) % 256)

/-- Right rotation of a 32-bit word. -/
def rotr32 (n x : Nat) : Nat := x / 2 ^ n + x % 2 ^ n * 2 ^ (32 - n)

/-- Bitwise complement of a 32-bit word. -/
def not32 (x : Nat) : Nat := 4294967295 - x

def sha256K : List Nat :=
  [1116352408, 1899447441, 3049323471, 3921009573, 961987163, 1508970993,
   2453635748, 2870763221, 3624381080, 310598401, 607225278, 1426881987,
   1925078388, 2162078206, 2614888103, 3248222580, 3835390401, 4022224774,
   264347078, 604807628, 770255983, 1249150122, 1555081692, 1996064986,
   2554220882, 2821834349, 2952996808, 3210313671, 3336571891, 3584528711,
   113926993, 338241895, 666307205, 773529912, 1294757372, 1396182291,
   1695183700, 1986661051, 2177026350, 2456956037, 2730485921, 2820302411,
   3259730800, 3345764771, 3516065817, 3600352804, 4094571909, 275423344,
   430227734, 506948616, 659060556, 883997877, 958139571, 1322822218,
   1537002063, 1747873779, 1955562222, 2024104815, 2227730452, 2361852424,
   2428436474, 2756734187, 3204031479, 3329325298]

def sha256H0 : List Nat :=
  [1779033703, 3144134277, 1013904242, 2773480762, 1359893119,
   2600822924, 528734635, 1541459225]

/-- Merkle–Damgard padding: a 0x80 byte, zeros to 56 mod 64, the bit length
big-endian in 8 bytes. -/
def sha256Pad (ms : List Nat) : List Nat :=
  ms ++ [128] ++ List.replicate ((119 - ms.length % 64) % 64) 0 ++ beBytes 8 (ms.length * 8)

/-- Big-endian 32-bit words of a byte string. -/
def beWords : List Nat → List Nat
  | a :: b :: c :: d :: rest => (a * 16777216 + b * 65536 + c * 256 + d) :: beWords rest
  | _ => []

/-- Split a word list into 16-word blocks. -/
def chunk16 (ws : List Nat) : List (List Nat) :=
  if ws.isEmpty then [] else ws.take 16 :: chunk16 (ws.drop 16)
termination_by ws.length
decreasing_by
  rename_i hne
  simp [List.isEmpty_iff] at hne
  simp [List.length_drop]
  cases ws with
  | nil => exact absurd rfl hne
  | cons x xs => simp

/-- One step of the message-schedule extension. -/
def sha256ExtendStep (w : List Nat) : List Nat :=
  let n := w.length
  let s0w := w.getD (n - 15) 0
  let s1w := w.getD (n - 2) 0
  let s0 := rotr32 7 s0w ^^^ rotr32 18 s0w ^^^ s0w / 8
  let s1 := rotr32 17 s1w ^^^ rotr32 19 s1w ^^^ s1w / 1024
  w ++ [(w.getD (n - 16) 0 + s0 + w.getD (n - 7) 0 + s1) % 4294967296]

/-- Extend a 16-word block to the 64-word schedule. -/
def sha256Extend (w : List Nat) : List Nat :=
  (List.range 48).foldl (fun acc _ => sha256ExtendStep acc) w

/-- One compression round of SHA-256 on the 8-word working state. -/
def sha256Round (st : List Nat) (wk : Nat × Nat) : List Nat :=
  match st with
  | [a, b, c, d, e, f, g, hh] =>
    let S1 := rotr32 6 e ^^^ rotr32 11 e ^^^ rotr32 25 e
    let ch := (e &&& f) ^^^ (not32 e &&& g)
    let temp1 := (hh + S1 + ch + wk.2 + wk.1) % 4294967296
    let S0 := rotr32 2 a ^^^ rotr32 13 a ^^^ rotr32 22 a
    let maj := (a &&& b) ^^^ (a &&& c) ^^^ (b &&& c)
    let temp2 := (S0 + maj) % 4294967296
    [(temp1 + temp2) % 4294967296, a, b, c, (d + temp1) % 4294967296, e, f, g]
  | _ => st

/-- Compression of one 16-word block into the running hash. -/
def sha256Block (h : List Nat) (block : List Nat) : List Nat :=
  let w := sha256Extend block
  let st := (w.zip sha256K).foldl sha256Round h
  (h.zip st).map (fun p => (p.1 + p.2) % 4294967296)

/-- SHA-256 digest (32 bytes) of a byte string. -/
def sha256 (ms : List Nat) : List Nat :=
  let hh := (chunk16 (beWords (sha256Pad ms))).foldl sha256Block sha256H0
  (hh.map (beBytes 4)).flatten

/-! ## ChaCha20 keystream (the rand_chacha crate's ChaCha20Rng)

The generator is seeded with 32 bytes; its word stream is the sequence of
32-bit words of ChaCha20 blocks with 64-bit block counter and zero stream id,
and its byte stream serializes those words little-endian.
-/

/-- Left rotation of a 32-bit word. -/
def rotl32 (n x : Nat) : Nat := x % 2 ^ (32 - n) * 2 ^ n + x / 2 ^ (32 - n)

/-- Quarter round on positions ia ib ic id of a 16-word state. -/
def chachaQR (st : List Nat) (ia ib ic id : Nat) : List Nat :=
  let a := st.getD ia 0
  let b := st.getD ib 0
  let c := st.getD ic 0
  let d := st.getD id 0
  let a := (a + b) % 4294967296
  let d := rotl32 16 (d ^^^ a)
  let c := (c + d) % 4294967296
  let b := rotl32 12 (b ^^^ c)
  let a := (a + b) % 4294967296
  let d := rotl32 8 (d ^^^ a)
  let c := (c + d) % 4294967296
  let b := rotl32 7 (b ^^^ c)
  ((((st.set ia a).set ib b).set ic c).set id d)

/-- One double round: four column rounds then four diagonal rounds. -/
def chachaDoubleRound (st : List Nat) : List Nat :=
  let st := chachaQR st 0 4 8 12
  let st := chachaQR st 1 5 9 13
  let st := chachaQR st 2 6 10 14
  let st := chachaQR st 3 7 11 15
  let st := chachaQR st 0 5 10 15
  let st := chachaQR st 1 6 11 12
  let st := chachaQR st 2 7 8 13
  chachaQR st 3 4 9 14

/-- Little-endian 32-bit words of a byte string. -/
def leWords : List Nat → List Nat
  | a :: b :: c :: d :: rest => (a + b * 256 + c * 65536 + d * 16777216) :: leWords rest
  | _ => []

/-- Initial ChaCha20 state for block i: constants, the 8 key words from the
32-byte seed, the 64-bit block counter, the zero stream id. -/
def chachaInit (seed : List Nat) (i : Nat) : List Nat :=
  [0x61707865, 0x3320646e, 0x79622d32, 0x6b206574] ++ leWords (seed.take 32) ++
    [i % 4294967296, i / 4294967296 % 4294967296, 0, 0]

/-- The 16 output words of ChaCha20 block i: ten double rounds, then the
wordwise sum with the initial state. -/
def chachaBlockWords (seed : List Nat) (i : Nat) : List Nat :=
  let st0 := chachaInit seed i
  let st := (List.range 10).foldl (fun acc _ => chachaDoubleRound acc) st0
  (st0.zip st).map (fun p => (p.1 + p.2) % 4294967296)

/-- Word n of the ChaCha20Rng word stream (next_u32 number n). -/
def chachaWord (seed : List Nat) (n : Nat) : Nat :=
  (chachaBlockWords seed (n / 16)).getD (n % 16) 0

/-- Byte n of the ChaCha20Rng byte stream (fill_bytes output). -/
def chachaByte (seed : List Nat) (n : Nat) : Nat :=
  chachaWord seed (n / 4) / 2 ^ (8 * (n % 4)) % 256

/-! ## Helper lemmas about the primitive codecs -/

theorem beBytes_length (k n : Nat) : (beBytes k n).length = k := by
  simp [beBytes]

theorem beBytes_lt (k n : Nat) : ∀ b ∈ beBytes k n, b < 256 := by
  intro b hb
  simp only [beBytes, List.mem_map, List.mem_range] at hb
  obtain ⟨i, _, rfl⟩ := hb
  exact Nat.mod_lt _ (by norm_num)

theorem sha256Round_length (st : List Nat) (wk : Nat × Nat) :
    (sha256Round st wk).length = st.length := by
  unfold sha256Round
  split
  · simp_all
  · rfl

theorem foldl_sha256Round_length (l : List (Nat × Nat)) (st : List Nat) :
    (l.foldl sha256Round st).length = st.length := by
  induction l generalizing st with
  | nil => rfl
  | cons x xs ih => rw [List.foldl_cons, ih, sha256Round_length]

theorem sha256Block_length (h block : List Nat) :
    (sha256Block h block).length = h.length := by
  unfold sha256Block
  simp [foldl_sha256Round_length]

theorem foldl_sha256Block_length (blocks : List (List Nat)) (h : List Nat) :
    (blocks.foldl sha256Block h).length = h.length := by
  induction blocks generalizing h with
  | nil => rfl
  | cons x xs ih => rw [List.foldl_cons, ih, sha256Block_length]

theorem sha256_length (ms : List Nat) : (sha256 ms).length = 32 := by
  unfold sha256
  have hlen : ((chunk16 (beWords (sha256Pad ms))).foldl sha256Block sha256H0).length = 8 :=
    foldl_sha256Block_length _ _
  generalize ((chunk16 (beWords (sha256Pad ms))).foldl sha256Block sha256H0) = hh at hlen
  simp [List.length_flatten, List.map_map, Function.comp_def, beBytes_length]
  omega

theorem sha256_lt (ms : List Nat) : ∀ b ∈ sha256 ms, b < 256 := by
  intro b hb
  unfold sha256 at hb
  simp only [List.mem_flatten, List.mem_map] at hb
  obtain ⟨l, ⟨w, _, rfl⟩, hbl⟩ := hb
  exact beBytes_lt _ _ b hbl

/-! ## Identity and crypto core (crypto-core/src/lib.rs)

The deterministic placeholder primitives are translated directly; KeyPair
generation from OS randomness is not modelled (its seed is an input here).
-/

inductive CryptoError where
  | VerificationFailed
  | InvalidCiphertext
  | Internal (msg : String)
deriving DecidableEq

/-- Fingerprint: standard (unpadded) base64 of the SHA-256 of the public key;
held as the byte string of the encoded text. -/
structure Fingerprint where
  s : List Nat
deriving DecidableEq

def Fingerprint.from_public_key (public_key : List Nat) : Fingerprint :=
  ⟨b64Encode false (sha256 public_key)⟩

structure KeyPair where
  fingerprint : Fingerprint
  public_key : List Nat
  private_key : List Nat
deriving DecidableEq

/-- Seed normalization of KeyPair::from_seed: 32 bytes taken directly when the
seed is long enough, otherwise the SHA-256 digest of the seed. -/
def seedBytes32 (seed : List Nat) : List Nat :=
  if 32 ≤ seed.length then seed.take 32 else sha256 seed

/-- The key pair KeyPair::from_seed constructs: 64 private-key bytes drawn
from a ChaCha20 generator seeded with the normalized seed, the public key the
SHA-256 of the private key, the fingerprint derived from the public key. -/
def keyPairOfSeed (seed : List Nat) : KeyPair :=
  let private_key := (List.range 64).map (chachaByte (seedBytes32 seed))
  let public_key := sha256 private_key
  { fingerprint := Fingerprint.from_public_key public_key, public_key, private_key }

def KeyPair.from_seed (seed : List Nat) : Except CryptoError KeyPair :=
  .ok (keyPairOfSeed seed)

/-- Symmetric envelope payload: nonce and ciphertext held as unpadded base64
text (byte strings of the encoded characters). -/
structure EncryptedPayload where
  nonce : List Nat
  ciphertext : List Nat
deriving DecidableEq

def EncryptedPayload.new (nonce ciphertext : List Nat) : EncryptedPayload :=
  ⟨b64Encode false nonce, b64Encode false ciphertext⟩

def EncryptedPayload.decode (p : EncryptedPayload) :
    Except CryptoError (List Nat × List Nat) :=
  match b64Decode false p.nonce with
  | none => .error (.Internal "failed to decode nonce")
  | some nonce =>
    match b64Decode false p.ciphertext with
    | none => .error (.Internal "failed to decode ciphertext")
    | some ciphertext => .ok (nonce, ciphertext)

/-- Sequential XOR of a byte string against the low byte of each keystream
word, starting at word index i (the for loop of encrypt/decrypt_message). -/
def xorKeystream (w : Nat → Nat) : Nat → List Nat → List Nat
  | _, [] => []
  | i, b :: rest => (b ^^^ w i % 256) :: xorKeystream w (i + 1) rest

/-- The deterministic prototype cipher: seed = SHA-256(fingerprint bytes and
the little-endian plaintext length), nonce = first 24 seed bytes, ciphertext =
plaintext XOR the ChaCha20 keystream from that seed. -/
def encrypt_message (key_pair : KeyPair) (plaintext : List Nat) :
    Except CryptoError EncryptedPayload :=
  let seed := sha256 (key_pair.fingerprint.s ++ leBytes 8 plaintext.length)
  let nonce := seed.take 24
  let ciphertext := xorKeystream (chachaWord seed) 0 plaintext
  .ok (EncryptedPayload.new nonce ciphertext)

def decrypt_message (key_pair : KeyPair) (payload : EncryptedPayload) :
    Except CryptoError (List Nat) :=
  match payload.decode with
  | .error e => .error e
  | .ok (nonce, ciphertext) =>
    if nonce.length ≠ 24 then .error .InvalidCiphertext
    else
      let seed := sha256 (key_pair.fingerprint.s ++ leBytes 8 ciphertext.length)
      .ok (xorKeystream (chachaWord seed) 0 ciphertext)

theorem xorKeystream_length (w : Nat → Nat) (i : Nat) (l : List Nat) :
    (xorKeystream w i l).length = l.length := by
  induction l generalizing i with
  | nil => rfl
  | cons b rest ih => simp [xorKeystream, ih]

theorem xorKeystream_xorKeystream (w : Nat → Nat) (i : Nat) (l : List Nat) :
    xorKeystream w i (xorKeystream w i l) = l := by
  induction l generalizing i with
  | nil => rfl
  | cons b rest ih =>
    simp only [xorKeystream, ih]
    congr 1
    rw [Nat.xor_assoc, Nat.xor_self, Nat.xor_zero]

theorem xorKeystream_lt (w : Nat → Nat) (i : Nat) (l : List Nat)
    (h : ∀ b ∈ l, b < 256) : ∀ b ∈ xorKeystream w i l, b < 256 := by
  induction l generalizing i with
  | nil => simp [xorKeystream]
  | cons b rest ih =>
    intro x hx
    simp only [xorKeystream, List.mem_cons] at hx
    rcases hx with rfl | hx
    · have h1 : b < 2 ^ 8 := h b (by simp)
      have h2 : w i % 256 < 2 ^ 8 := Nat.mod_lt _ (by norm_num)
      exact Nat.xor_lt_two_pow h1 h2
    · exact ih (i + 1) (fun y hy => h y (by simp [hy])) x hx

/-- C8: the deterministic cipher round-trips because the keystream seed
depends only on the fingerprint and the length, which XOR preserves. -/
theorem c8_encrypt_decrypt_roundtrip (kp : KeyPair) (pt : List Nat)
    (h : ∀ b ∈ pt, b < 256) :
    (encrypt_message kp pt).bind (decrypt_message kp) = .ok pt := by
  unfold encrypt_message decrypt_message EncryptedPayload.new EncryptedPayload.decode
  simp only [Except.bind]
  have hn : b64Decode false
      (b64Encode false ((sha256 (kp.fingerprint.s ++ leBytes 8 pt.length)).take 24)) =
      some ((sha256 (kp.fingerprint.s ++ leBytes 8 pt.length)).take 24) :=
    b64Decode_b64Encode false _ (fun b hb => sha256_lt _ b (List.take_subset _ _ hb))
  have hct : b64Decode false
      (b64Encode false
        (xorKeystream (chachaWord (sha256 (kp.fingerprint.s ++ leBytes 8 pt.length))) 0 pt)) =
      some (xorKeystream (chachaWord (sha256 (kp.fingerprint.s ++ leBytes 8 pt.length))) 0 pt) :=
    b64Decode_b64Encode false _ (xorKeystream_lt _ _ _ h)
  have hlen24 : ((sha256 (kp.fingerprint.s ++ leBytes 8 pt.length)).take 24).length = 24 := by
    rw [List.length_take, sha256_length]
    norm_num
  simp only [hn, hct, hlen24, ne_eq, not_true_eq_false, if_false, xorKeystream_length,
    xorKeystream_xorKeystream]

/-- C8 witness: the round trip evaluated at a concrete key pair and message. -/
theorem c8_roundtrip_witness :
    (∀ b ∈ [104, 105], b < 256) ∧
      (encrypt_message ⟨⟨[]⟩, [], []⟩ [104, 105]).bind (decrypt_message ⟨⟨[]⟩, [], []⟩) =
        .ok [104, 105] :=
  ⟨by decide, c8_encrypt_decrypt_roundtrip ⟨⟨[]⟩, [], []⟩ [104, 105] (by decide)⟩

/-- C10: KeyPair::from_seed is total and deterministic; seeds of 32 bytes or
more are truncated to their first 32 bytes and shorter seeds are expanded
through SHA-256. -/
theorem c10_from_seed_total (seed : List Nat) :
    KeyPair.from_seed seed = .ok (keyPairOfSeed seed)
    ∧ (∀ t, seed = t → KeyPair.from_seed seed = KeyPair.from_seed t)
    ∧ (32 ≤ seed.length → KeyPair.from_seed seed = KeyPair.from_seed (seed.take 32))
    ∧ (seed.length < 32 → KeyPair.from_seed seed = KeyPair.from_seed (sha256 seed)) := by
  refine ⟨rfl, fun t ht => by rw [ht], fun h32 => ?_, fun hlt => ?_⟩
  · unfold KeyPair.from_seed keyPairOfSeed seedBytes32
    have h1 : (seed.take 32).length = 32 := by rw [List.length_take]; omega
    rw [if_pos h32, if_pos (by omega : 32 ≤ (seed.take 32).length), List.take_take]
    norm_num
  · unfold KeyPair.from_seed keyPairOfSeed seedBytes32
    have h1 : (sha256 seed).length = 32 := sha256_length seed
    rw [if_neg (by omega), if_pos (by omega), List.take_of_length_le (by omega)]

/-- C10 witness: a 33-byte seed is truncated to its first 32 bytes. -/
theorem c10_from_seed_witness :
    32 ≤ (List.replicate 33 7 : List Nat).length
    ∧ KeyPair.from_seed (List.replicate 33 7) =
        KeyPair.from_seed ((List.replicate 33 7).take 32) :=
  ⟨by simp, (c10_from_seed_total (List.replicate 33 7)).2.2.1 (by simp)⟩

/-! ## Messaging models (shared/messaging/src/lib.rs and pgp_envelope.rs)

Identifiers are UUIDs in the source; they are opaque values here, modelled as
naturals. The Sequoia OpenPGP primitives live outside this repository, so a
PgpPrims record abstracts key pairs and certificates as opaque handles and
carries encrypt_and_sign and decrypt_and_verify as functions; theorems that
need their behaviour assume only the library contract stated per claim.
-/

structure ConversationId where
  id : Nat
deriving DecidableEq

structure DeviceId where
  id : Nat
deriving DecidableEq

structure PlaintextMessage where
  message_id : Nat
  conversation_id : ConversationId
  sender_device : DeviceId
  created_ms : Int
  body : List Nat
deriving DecidableEq

inductive MessagingError where
  | Crypto (msg : String)
deriving DecidableEq

/-- Abstract interface of the Sequoia-backed PgpKeyPair: key pairs and
certificates are opaque handles (naturals); certOf maps a key pair to its
certificate; the payload functions return none on failure. -/
structure PgpPrims where
  encryptSign : Nat → Nat → List Nat → Option (List Nat)
  decryptVerify : Nat → Nat → List Nat → Option (List Nat)
  fingerprint : Nat → String
  certOf : Nat → Nat

structure PgpEnvelope where
  message_id : Nat
  conversation_id : ConversationId
  sender_fingerprint : String
  sender_device : DeviceId
  created_ms : Int
  encrypted_payload : List Nat
deriving DecidableEq

/-- PgpEnvelope::from_plaintext: encrypt-and-sign the body, base64 (STANDARD,
padded) the ciphertext, copy the metadata from the message. -/
def PgpEnvelope.from_plaintext (P : PgpPrims) (message : PlaintextMessage)
    (sender_keypair recipient_cert : Nat) : Except MessagingError PgpEnvelope :=
  match P.encryptSign sender_keypair recipient_cert message.body with
  | none => .error (.Crypto "encrypt_and_sign failed")
  | some ct =>
    .ok { message_id := message.message_id
          conversation_id := message.conversation_id
          sender_fingerprint := P.fingerprint sender_keypair
          sender_device := message.sender_device
          created_ms := message.created_ms
          encrypted_payload := b64Encode true ct }

/-- PgpEnvelope::into_plaintext: base64-decode the payload, decrypt-and-verify,
return the body under metadata copied from the envelope header. -/
def PgpEnvelope.into_plaintext (P : PgpPrims) (env : PgpEnvelope)
    (recipient_keypair sender_cert : Nat) : Except MessagingError PlaintextMessage :=
  match b64Decode true env.encrypted_payload with
  | none => .error (.Crypto "base64 decode failed")
  | some ct =>
    match P.decryptVerify recipient_keypair sender_cert ct with
    | none => .error (.Crypto "decrypt_and_verify failed")
    | some body =>
      .ok { message_id := env.message_id
            conversation_id := env.conversation_id
            sender_device := env.sender_device
            created_ms := env.created_ms
            body := body }

/-- Transport envelope (node/src/messaging/mod.rs): header fields copied from
the inner PGP envelope plus the recipient device. -/
structure TransportEnvelope where
  message_id : Nat
  conversation_id : ConversationId
  sender_device : DeviceId
  recipient_device : DeviceId
  created_ms : Int
  pgp_envelope : PgpEnvelope
deriving DecidableEq

def TransportEnvelope.new (recipient_device : DeviceId) (p : PgpEnvelope) :
    TransportEnvelope :=
  { message_id := p.message_id
    conversation_id := p.conversation_id
    sender_device := p.sender_device
    recipient_device := recipient_device
    created_ms := p.created_ms
    pgp_envelope := p }

/-- Concrete instantiation of the PGP interface in which encryption is the
identity, used to exhibit concrete runs of the envelope code. -/
def pgpIdPrims : PgpPrims :=
  { encryptSign := fun _ _ m => some m
    decryptVerify := fun _ _ c => some c
    fingerprint := fun _ => ""
    certOf := fun k => k }

/-- The library contract of encrypt_and_sign and decrypt_and_verify between a
sender key pair A and a recipient key pair B: encryption succeeds on byte
strings, produces a byte string, and decrypt-and-verify inverts it. -/
def pgpRoundtripContract (P : PgpPrims) (A B : Nat) : Prop :=
  ∀ m : List Nat, (∀ b ∈ m, b < 256) →
    ∃ c, P.encryptSign A (P.certOf B) m = some c ∧ (∀ b ∈ c, b < 256) ∧
      P.decryptVerify B (P.certOf A) c = some m

/-- C1 (amended): into_plaintext performs no comparison between the envelope
header and the decrypted content — the encrypted payload carries only the
body — so whenever base64 decoding and decrypt_and_verify succeed it returns
Ok with all metadata copied from the (possibly modified) header. -/
theorem c1_metadata_copied_from_header (P : PgpPrims) (env : PgpEnvelope)
    (rk sc : Nat) (ct body : List Nat)
    (h1 : b64Decode true env.encrypted_payload = some ct)
    (h2 : P.decryptVerify rk sc ct = some body) :
    PgpEnvelope.into_plaintext P env rk sc =
      .ok { message_id := env.message_id, conversation_id := env.conversation_id,
            sender_device := env.sender_device, created_ms := env.created_ms,
            body := body } := by
  unfold PgpEnvelope.into_plaintext
  simp only [h1, h2]

/-- C1 counterexample: an envelope built for message_id 1, its header modified
to message_id 2 with the inner ciphertext intact; into_plaintext succeeds
(returning the spoofed metadata) instead of failing with InvalidEnvelope. -/
theorem c1_counterexample :
    PgpEnvelope.from_plaintext pgpIdPrims
        { message_id := 1, conversation_id := ⟨0⟩, sender_device := ⟨0⟩,
          created_ms := 0, body := [104, 105] } 0 1 =
      .ok { message_id := 1, conversation_id := ⟨0⟩, sender_fingerprint := "",
            sender_device := ⟨0⟩, created_ms := 0, encrypted_payload := [97, 71, 107, 61] }
    ∧ PgpEnvelope.into_plaintext pgpIdPrims
        { message_id := 2, conversation_id := ⟨0⟩, sender_fingerprint := "",
          sender_device := ⟨0⟩, created_ms := 0, encrypted_payload := [97, 71, 107, 61] } 0 1 =
      .ok { message_id := 2, conversation_id := ⟨0⟩, sender_device := ⟨0⟩,
            created_ms := 0, body := [104, 105] }
    ∧ ∀ e, PgpEnvelope.into_plaintext pgpIdPrims
        { message_id := 2, conversation_id := ⟨0⟩, sender_fingerprint := "",
          sender_device := ⟨0⟩, created_ms := 0, encrypted_payload := [97, 71, 107, 61] } 0 1 ≠
        .error e := by
  refine ⟨by rfl, by rfl, fun e he => ?_⟩
  have h : PgpEnvelope.into_plaintext pgpIdPrims
      { message_id := 2, conversation_id := ⟨0⟩, sender_fingerprint := "",
        sender_device := ⟨0⟩, created_ms := 0, encrypted_payload := [97, 71, 107, 61] } 0 1 =
      .ok { message_id := 2, conversation_id := ⟨0⟩, sender_device := ⟨0⟩,
            created_ms := 0, body := [104, 105] } := by rfl
  rw [h] at he
  exact Except.noConfusion he

/-- C1 witness: the amended statement applied at the tampered envelope. -/
theorem c1_witness :
    b64Decode true [97, 71, 107, 61] = some [104, 105]
    ∧ pgpIdPrims.decryptVerify 0 1 [104, 105] = some [104, 105]
    ∧ PgpEnvelope.into_plaintext pgpIdPrims
        { message_id := 2, conversation_id := ⟨0⟩, sender_fingerprint := "",
          sender_device := ⟨0⟩, created_ms := 0, encrypted_payload := [97, 71, 107, 61] } 0 1 =
      .ok { message_id := 2, conversation_id := ⟨0⟩, sender_device := ⟨0⟩,
            created_ms := 0, body := [104, 105] } :=
  ⟨by rfl, rfl,
    c1_metadata_copied_from_header pgpIdPrims _ 0 1 [104, 105] [104, 105] (by rfl) rfl⟩

/-- C3: wrapping then unwrapping returns the message unchanged, under the
OpenPGP library contract for the two key pairs. -/
theorem c3_wrap_unwrap_roundtrip (P : PgpPrims) (A B : Nat) (d : DeviceId)
    (msg : PlaintextMessage) (hbytes : ∀ b ∈ msg.body, b < 256)
    (hC : pgpRoundtripContract P A B) :
    ∃ env, PgpEnvelope.from_plaintext P msg A (P.certOf B) = .ok env ∧
      PgpEnvelope.into_plaintext P (TransportEnvelope.new d env).pgp_envelope B (P.certOf A) =
        .ok msg := by
  obtain ⟨c, hc1, hc2, hc3⟩ := hC msg.body hbytes
  refine ⟨{ message_id := msg.message_id, conversation_id := msg.conversation_id,
            sender_fingerprint := P.fingerprint A, sender_device := msg.sender_device,
            created_ms := msg.created_ms, encrypted_payload := b64Encode true c }, ?_, ?_⟩
  · unfold PgpEnvelope.from_plaintext
    simp only [hc1]
  · unfold PgpEnvelope.into_plaintext TransportEnvelope.new
    simp only [b64Decode_b64Encode true c hc2, hc3]

/-- C3 witness: the round trip at a concrete message and the identity
instantiation of the PGP interface. -/
theorem c3_witness :
    (∀ b ∈ [104, 105], b < 256) ∧ pgpRoundtripContract pgpIdPrims 0 1 ∧
      ∃ env,
        PgpEnvelope.from_plaintext pgpIdPrims
            { message_id := 1, conversation_id := ⟨2⟩, sender_device := ⟨3⟩,
              created_ms := 4, body := [104, 105] } 0 (pgpIdPrims.certOf 1) = .ok env ∧
        PgpEnvelope.into_plaintext pgpIdPrims
            (TransportEnvelope.new ⟨5⟩ env).pgp_envelope 1 (pgpIdPrims.certOf 0) =
          .ok { message_id := 1, conversation_id := ⟨2⟩, sender_device := ⟨3⟩,
                created_ms := 4, body := [104, 105] } :=
  ⟨by decide, fun m hm => ⟨m, rfl, hm, rfl⟩,
    c3_wrap_unwrap_roundtrip pgpIdPrims 0 1 ⟨5⟩ _ (by decide)
      (fun m hm => ⟨m, rfl, hm, rfl⟩)⟩

/-! ## Node storage (node/src/storage/mod.rs)

The sled replication tree is modelled as an association list keyed by the
message id (stringified UUIDs are injective, so the id itself is the key).
PeerIds and their string forms are likewise opaque and modelled as naturals;
Vec sort and dedup become insertion sort and adjacent deduplication.
-/

structure EncryptedEnvelope where
  message_id : Nat
  conversation_id : ConversationId
  sender_fingerprint : String
  sender_device : DeviceId
  created_ms : Int
  payload : EncryptedPayload
  signature : List Nat
deriving DecidableEq

structure StoredEnvelope where
  envelope : EncryptedEnvelope
  pending_peers : List Nat
  acked_peers : List Nat
deriving DecidableEq

def NodeStorage : Type := List (Nat × StoredEnvelope)

/-- Upsert into the sled tree: replace the value under an existing key, else
append a new entry. -/
def treeInsert : List (Nat × StoredEnvelope) → Nat → StoredEnvelope →
    List (Nat × StoredEnvelope)
  | [], k, v => [(k, v)]
  | p :: ps, k, v => if p.1 = k then (k, v) :: ps else p :: treeInsert ps k v

def treeRemove (t : List (Nat × StoredEnvelope)) (k : Nat) :
    List (Nat × StoredEnvelope) :=
  t.filter (fun p => p.1 != k)

def insertSorted (x : Nat) : List Nat → List Nat
  | [] => [x]
  | y :: ys => if x ≤ y then x :: y :: ys else y :: insertSorted x ys

/-- Vec::sort on the peer strings (any fixed linear order on peer ids). -/
def sortPeers : List Nat → List Nat
  | [] => []
  | x :: xs => insertSorted x (sortPeers xs)

/-- Vec::dedup: remove consecutive duplicates. -/
def dedupPeers : List Nat → List Nat
  | [] => []
  | [x] => [x]
  | x :: y :: rest => if x = y then dedupPeers (y :: rest) else x :: dedupPeers (y :: rest)

/-- NodeStorage::insert_outbound: keep (or create) the record, overwrite its
envelope, and replace pending_peers with the given peers sorted and
deduplicated; acked_peers is left as it was. -/
def insert_outbound (st : List (Nat × StoredEnvelope)) (message_id : Nat)
    (envelope : EncryptedEnvelope) (peers : List Nat) : List (Nat × StoredEnvelope) :=
  let record :=
    match List.lookup message_id st with
    | some stored => { stored with envelope := envelope }
    | none => { envelope := envelope, pending_peers := [], acked_peers := [] }
  treeInsert st message_id { record with pending_peers := dedupPeers (sortPeers peers) }

/-- NodeStorage::mark_peer_success: drop the peer from pending, add it to
acked when absent; delete the record and return true when pending became
empty, else save and return false; a missing record returns true unchanged. -/
def mark_peer_success (st : List (Nat × StoredEnvelope)) (message_id peer : Nat) :
    List (Nat × StoredEnvelope) × Bool :=
  match List.lookup message_id st with
  | none => (st, true)
  | some stored =>
    let pending := stored.pending_peers.filter (fun p => p != peer)
    let acked :=
      if stored.acked_peers.contains peer then stored.acked_peers
      else stored.acked_peers ++ [peer]
    if pending.isEmpty then (treeRemove st message_id, true)
    else
      (treeInsert st message_id
        { envelope := stored.envelope, pending_peers := pending, acked_peers := acked },
       false)

structure PendingEnvelope where
  message_id : Nat
  envelope : EncryptedEnvelope
  pending_peers : List Nat
deriving DecidableEq

/-- NodeStorage::load_pending: every record whose pending peer list is
non-empty, in tree order (all stored peer strings parse back to peer ids). -/
def load_pending (st : List (Nat × StoredEnvelope)) : List PendingEnvelope :=
  st.filterMap (fun kv =>
    if kv.2.pending_peers.isEmpty then none
    else some { message_id := kv.1, envelope := kv.2.envelope,
                pending_peers := kv.2.pending_peers })

/-- An all-zero envelope used for concrete runs of the storage code. -/
def envZero : EncryptedEnvelope :=
  { message_id := 0, conversation_id := ⟨0⟩, sender_fingerprint := "",
    sender_device := ⟨0⟩, created_ms := 0, payload := ⟨[], []⟩, signature := [] }

theorem lookup_treeInsert_self (t : List (Nat × StoredEnvelope)) (k : Nat)
    (v : StoredEnvelope) : List.lookup k (treeInsert t k v) = some v := by
  induction t with
  | nil => simp [treeInsert, List.lookup]
  | cons p ps ih =>
    unfold treeInsert
    by_cases h : p.1 = k
    · simp [h, List.lookup]
    · have hb : (k == p.1) = false := by simp; omega
      simp [if_neg h, List.lookup, hb, ih]

theorem lookup_treeRemove_self (t : List (Nat × StoredEnvelope)) (k : Nat) :
    List.lookup k (treeRemove t k) = none := by
  induction t with
  | nil => rfl
  | cons p ps ih =>
    unfold treeRemove at ih ⊢
    by_cases h : p.1 = k
    · have hb : (p.1 != k) = false := by simp [h]
      simp [List.filter, hb, ih]
    · have hb : (p.1 != k) = true := by simp; omega
      have hb2 : (k == p.1) = false := by simp; omega
      simp [List.filter, hb, hb2, List.lookup, ih]

theorem mem_insertSorted (x y : Nat) (l : List Nat) :
    y ∈ insertSorted x l ↔ y = x ∨ y ∈ l := by
  induction l with
  | nil => simp [insertSorted]
  | cons z zs ih =>
    unfold insertSorted
    by_cases h : x ≤ z
    · simp [h]
    · simp only [if_neg h, List.mem_cons, ih]
      tauto

theorem mem_sortPeers (y : Nat) (l : List Nat) : y ∈ sortPeers l ↔ y ∈ l := by
  induction l with
  | nil => simp [sortPeers]
  | cons z zs ih => simp [sortPeers, mem_insertSorted, ih]

theorem mem_dedupPeers (y : Nat) (l : List Nat) : y ∈ dedupPeers l ↔ y ∈ l := by
  match l with
  | [] => simp [dedupPeers]
  | [x] => simp [dedupPeers]
  | x :: z :: rest =>
    have ih := mem_dedupPeers y (z :: rest)
    unfold dedupPeers
    by_cases h : x = z
    · subst h
      simp [ih]
    · simp [if_neg h, ih]

/-- C2 (amended): insert_outbound on an existing key overwrites the envelope
and replaces pending_peers with exactly the given peers (sorted,
deduplicated), regardless of acked_peers, which is kept unchanged; a record
whose replaced pending set is empty is stored, not deleted. -/
theorem c2_insert_outbound_replaces (st : List (Nat × StoredEnvelope)) (id : Nat)
    (e : EncryptedEnvelope) (peers : List Nat) :
    List.lookup id (insert_outbound st id e peers) =
      some { envelope := e
             pending_peers := dedupPeers (sortPeers peers)
             acked_peers :=
               match List.lookup id st with
               | some r => r.acked_peers
               | none => [] }
    ∧ (∀ p, p ∈ dedupPeers (sortPeers peers) ↔ p ∈ peers) := by
  constructor
  · unfold insert_outbound
    cases h : List.lookup id st <;> simp [h, lookup_treeInsert_self]
  · intro p
    rw [mem_dedupPeers, mem_sortPeers]

/-- C2 counterexample: after acking peer 1, re-inserting with peer 1 puts the
acked peer back into pending, so pending and acked intersect; and an insert
with an empty peer list keeps the record with empty pending rather than
deleting it. -/
theorem c2_counterexample :
    List.lookup 10
        (insert_outbound ((mark_peer_success (insert_outbound [] 10 envZero [1, 2]) 10 1).1)
          10 envZero [1]) =
      some { envelope := envZero, pending_peers := [1], acked_peers := [1] }
    ∧ (1 ∈ [1] ∧ 1 ∈ ([1] : List Nat))
    ∧ List.lookup 11 (insert_outbound [] 11 envZero []) =
        some { envelope := envZero, pending_peers := [], acked_peers := [] } :=
  ⟨by rfl, ⟨by simp, by simp⟩, by rfl⟩

/-- C4: mark_peer_success removes the peer from pending and adds it to acked,
returns true exactly when pending became empty (deleting the record), returns
false otherwise, and is a no-op returning true on a missing record; the
insert-three-ack-all scenario behaves as specified. -/
theorem c4_mark_peer_success_semantics :
    (∀ st id p, List.lookup id st = none → mark_peer_success st id p = (st, true))
    ∧ (∀ st id p r, List.lookup id st = some r →
        ((mark_peer_success st id p).2 = true ↔
          (r.pending_peers.filter (fun q => q != p)).isEmpty = true)
        ∧ ((r.pending_peers.filter (fun q => q != p)).isEmpty = true →
            List.lookup id (mark_peer_success st id p).1 = none)
        ∧ ((r.pending_peers.filter (fun q => q != p)).isEmpty = false →
            List.lookup id (mark_peer_success st id p).1 =
              some { envelope := r.envelope
                     pending_peers := r.pending_peers.filter (fun q => q != p)
                     acked_peers :=
                       if r.acked_peers.contains p then r.acked_peers
                       else r.acked_peers ++ [p] }))
    ∧ load_pending ((mark_peer_success (insert_outbound [] 10 envZero [1, 2, 3]) 10 2).1) =
        [{ message_id := 10, envelope := envZero, pending_peers := [1, 3] }]
    ∧ List.lookup 10 ((mark_peer_success (insert_outbound [] 10 envZero [1, 2, 3]) 10 2).1) =
        some { envelope := envZero, pending_peers := [1, 3], acked_peers := [2] }
    ∧ (mark_peer_success (insert_outbound [] 10 envZero [1, 2, 3]) 10 2).2 = false
    ∧ (mark_peer_success
        ((mark_peer_success
          ((mark_peer_success (insert_outbound [] 10 envZero [1, 2, 3]) 10 2).1) 10 1).1)
        10 3).2 = true
    ∧ List.lookup 10
        (mark_peer_success
          ((mark_peer_success
            ((mark_peer_success (insert_outbound [] 10 envZero [1, 2, 3]) 10 2).1) 10 1).1)
          10 3).1 = none
    ∧ load_pending
        (mark_peer_success
          ((mark_peer_success
            ((mark_peer_success (insert_outbound [] 10 envZero [1, 2, 3]) 10 2).1) 10 1).1)
          10 3).1 = [] := by
  refine ⟨?_, ?_, by rfl, by rfl, by rfl, by rfl, by rfl, by rfl⟩
  · intro st id p h
    unfold mark_peer_success
    rw [h]
  · intro st id p r h
    unfold mark_peer_success
    rw [h]
    cases hemp : (r.pending_peers.filter (fun q => q != p)).isEmpty with
    | true => simp [hemp, lookup_treeRemove_self]
    | false => simp [hemp, lookup_treeInsert_self]

/-- C4 witness: the general clauses applied at concrete stores. -/
theorem c4_witness :
    mark_peer_success [] 5 7 = ([], true)
    ∧ ((mark_peer_success [(5, ⟨envZero, [7, 8], []⟩)] 5 7).2 = true ↔
        (([7, 8] : List Nat).filter (fun q => q != 7)).isEmpty = true) :=
  ⟨c4_mark_peer_success_semantics.1 [] 5 7 rfl,
    (c4_mark_peer_success_semantics.2.1 [(5, ⟨envZero, [7, 8], []⟩)] 5 7
      ⟨envZero, [7, 8], []⟩ rfl).1⟩

/-! ## Overlay runtime Publish handling (node/src/overlay/runtime.rs)

The single-threaded event loop's Publish branch (run, lines 82-133) is a pure
function of the runtime state, the discovery snapshot, and the envelope; the
libp2p request ids are a running counter, storage writes succeed (sled I/O
errors are outside the embedding).
-/

inductive OverlayError where
  | TransportNotInitialized
  | Transport (msg : String)
  | InvalidAddress (msg : String)
  | Discovery (msg : String)
  | Replication (msg : String)
  | Subscription (msg : String)
  | NotImplemented
deriving DecidableEq

inductive ReplicationEvent where
  | PublishQueued (message_id : Nat)
  | PublishAck (message_id : Nat) (peer : Nat)
  | PublishFailed (message_id : Nat) (reason : String)
  | PublishRetry (message_id : Nat) (peer : Nat)
deriving DecidableEq

/-- Mutable runtime state touched by the Publish branch: the storage tree and
the in-flight map from request id to (message id, peer), plus the counter
producing fresh request ids. -/
structure PublishState where
  storage : List (Nat × StoredEnvelope)
  pending_replications : List (Nat × Nat × Nat)
  next_request_id : Nat
deriving DecidableEq

/-- OverlayRuntime::in_flight: some in-flight entry carries this
(message id, peer) pair. -/
def in_flight (pr : List (Nat × Nat × Nat)) (message_id peer : Nat) : Bool :=
  pr.any (fun t => t.2.1 == message_id && t.2.2 == peer)

/-- The for loop over target peers: skip a peer already in flight, otherwise
issue a request, record the in-flight entry, and set the sent flag. -/
def publish_loop (message_id : Nat) (envelope : EncryptedEnvelope) :
    List Nat → List (Nat × Nat × Nat) → Nat → List (Nat × EncryptedEnvelope) → Bool →
      List (Nat × Nat × Nat) × Nat × List (Nat × EncryptedEnvelope) × Bool
  | [], pr, rid, reqs, sent => (pr, rid, reqs, sent)
  | p :: ps, pr, rid, reqs, sent =>
    if in_flight pr message_id p then publish_loop message_id envelope ps pr rid reqs sent
    else
      publish_loop message_id envelope ps (pr ++ [(rid, message_id, p)]) (rid + 1)
        (reqs ++ [(p, envelope)]) true

structure PublishResult where
  state : PublishState
  reply : Except OverlayError Unit
  events : List ReplicationEvent
  requests : List (Nat × EncryptedEnvelope)

/-- The Publish command branch: empty peer snapshot replies NoPeers and emits
PublishFailed without persisting; otherwise the first max(replication_factor,1)
peers are targeted, the outbound record is persisted, one request is sent per
target not already in flight, and PublishQueued is emitted precisely when some
request was sent; the reply is Ok either way. -/
def handle_publish (st : PublishState) (replication_factor : Nat) (peers : List Nat)
    (envelope : EncryptedEnvelope) : PublishResult :=
  let message_id := envelope.message_id
  if peers.isEmpty then
    { state := st
      reply := .error (.Replication "no peers available")
      events := [.PublishFailed message_id "no peers available"]
      requests := [] }
  else
    let max_targets := max replication_factor 1
    let target_peers := peers.take max_targets
    let storage := insert_outbound st.storage message_id envelope target_peers
    let out := publish_loop message_id envelope target_peers st.pending_replications
      st.next_request_id [] false
    { state := { storage := storage, pending_replications := out.1, next_request_id := out.2.1 }
      reply := .ok ()
      events := if out.2.2.2 then [.PublishQueued message_id] else []
      requests := out.2.2.1 }

/-- The empty runtime state: nothing stored, nothing in flight. -/
def emptyPublishState : PublishState :=
  { storage := [], pending_replications := [], next_request_id := 0 }

theorem in_flight_append (pr : List (Nat × Nat × Nat)) (x : Nat × Nat × Nat)
    (message_id peer : Nat) :
    in_flight (pr ++ [x]) message_id peer =
      (in_flight pr message_id peer || (x.2.1 == message_id && x.2.2 == peer)) := by
  simp [in_flight]

/-- Requests of the loop: with pairwise distinct targets, exactly the targets
not in flight at entry, in order, each carrying the envelope. -/
theorem publish_loop_requests (message_id : Nat) (envelope : EncryptedEnvelope)
    (ts : List Nat) (pr : List (Nat × Nat × Nat)) (rid : Nat)
    (reqs : List (Nat × EncryptedEnvelope)) (sent : Bool) (hnd : ts.Nodup) :
    (publish_loop message_id envelope ts pr rid reqs sent).2.2.1 =
      reqs ++ (ts.filter (fun p => ¬ in_flight pr message_id p)).map
        (fun p => (p, envelope)) := by
  induction ts generalizing pr rid reqs sent with
  | nil => simp [publish_loop]
  | cons p ps ih =>
    have hmem : p ∉ ps := (List.nodup_cons.mp hnd).1
    have hnd2 : ps.Nodup := (List.nodup_cons.mp hnd).2
    unfold publish_loop
    by_cases h : in_flight pr message_id p
    · rw [if_pos h, ih _ _ _ _ hnd2]
      simp [List.filter_cons, h]
    · rw [if_neg h, ih _ _ _ _ hnd2]
      have hfilter : ps.filter (fun q => ¬ in_flight (pr ++ [(rid, message_id, p)]) message_id q) =
          ps.filter (fun q => ¬ in_flight pr message_id q) := by
        apply List.filter_congr
        intro q hq
        rw [in_flight_append]
        have hne : (p == q) = false := by
          simp only [beq_eq_false_iff_ne]
          exact fun hpq => hmem (hpq ▸ hq)
        simp [hne]
      rw [hfilter]
      simp [List.filter_cons, h]

/-- The sent flag of the loop: requests only ever accumulate, and the flag is
set exactly when some request was appended (no distinctness needed). -/
theorem publish_loop_sent (message_id : Nat) (envelope : EncryptedEnvelope)
    (ts : List Nat) (pr : List (Nat × Nat × Nat)) (rid : Nat)
    (reqs : List (Nat × EncryptedEnvelope)) (sent : Bool) :
    ∃ extra, (publish_loop message_id envelope ts pr rid reqs sent).2.2.1 = reqs ++ extra
      ∧ (publish_loop message_id envelope ts pr rid reqs sent).2.2.2 =
          (sent || !extra.isEmpty) := by
  induction ts generalizing pr rid reqs sent with
  | nil => exact ⟨[], by simp [publish_loop]⟩
  | cons p ps ih =>
    unfold publish_loop
    by_cases h : in_flight pr message_id p
    · rw [if_pos h]
      exact ih pr rid reqs sent
    · rw [if_neg h]
      obtain ⟨extra, h1, h2⟩ := ih (pr ++ [(rid, message_id, p)]) (rid + 1)
        (reqs ++ [(p, envelope)]) true
      exact ⟨(p, envelope) :: extra, by simpa using h1, by simp [h2]⟩

/-- C5 (amended): a Publish with a non-empty peer snapshot targets exactly the
first min(max(replication_factor, 1), number of peers) peers of the snapshot
ordering, and issues one request per target not already in flight, with
pairwise distinct (message id, peer) pairs; with replication_factor 2 and
three distinct known peers, exactly the first two peers are requested. -/
theorem c5_publish_targets (st : PublishState) (rf : Nat) (peers : List Nat)
    (e : EncryptedEnvelope) (hne : peers ≠ []) (hnd : peers.Nodup) :
    ((peers.take (max rf 1)).length = min (max rf 1) peers.length)
    ∧ ((handle_publish st rf peers e).requests =
        ((peers.take (max rf 1)).filter
          (fun p => ¬ in_flight st.pending_replications e.message_id p)).map
          (fun p => (p, e)))
    ∧ (((handle_publish st rf peers e).requests.map (fun r => (e.message_id, r.1))).Nodup)
    ∧ (∀ r ∈ (handle_publish st rf peers e).requests, r.2 = e)
    ∧ (∀ q1 q2 q3 : Nat, q1 ≠ q2 → q1 ≠ q3 → q2 ≠ q3 →
        (handle_publish ⟨st.storage, [], st.next_request_id⟩ 2 [q1, q2, q3] e).requests =
          [(q1, e), (q2, e)]) := by
  have hempty : ¬ peers.isEmpty = true := by simp [List.isEmpty_iff, hne]
  have hndk : (peers.take (max rf 1)).Nodup := (List.take_sublist _ _).nodup hnd
  have hreq : (handle_publish st rf peers e).requests =
      ((peers.take (max rf 1)).filter
        (fun p => ¬ in_flight st.pending_replications e.message_id p)).map
        (fun p => (p, e)) := by
    unfold handle_publish
    rw [if_neg hempty]
    simpa using publish_loop_requests e.message_id e (peers.take (max rf 1))
      st.pending_replications st.next_request_id [] false hndk
  refine ⟨by simp, hreq, ?_, ?_, ?_⟩
  · rw [hreq, List.map_map]
    have : ((fun r => (e.message_id, r.1)) ∘ fun p => ((p, e) : Nat × EncryptedEnvelope)) =
        fun p => (e.message_id, p) := rfl
    rw [this]
    exact (hndk.filter _).map (fun a b hab => by simpa using hab)
  · intro r hr
    rw [hreq] at hr
    simp only [List.mem_map] at hr
    obtain ⟨p, _, rfl⟩ := hr
    rfl
  · intro q1 q2 q3 h12 h13 h23
    have hb : (q1 == q2) = false := by simp [h12]
    simp [handle_publish, publish_loop, in_flight, hb]

/-- C5 counterexample: with replication_factor 0 and one known peer the code
targets max(0, 1) = 1 peer and issues one request, not min(0, 1) = 0. -/
theorem c5_counterexample :
    (handle_publish emptyPublishState 0 [5] envZero).requests.length = 1
    ∧ (1 : Nat) ≠ min 0 ([5] : List Nat).length :=
  ⟨by rfl, by decide⟩

/-- C5 witness: the replication-factor-2 scenario at concrete peers. -/
theorem c5_witness :
    ([4, 5, 6] : List Nat) ≠ [] ∧ ([4, 5, 6] : List Nat).Nodup ∧
      (handle_publish emptyPublishState 2 [4, 5, 6] envZero).requests =
        [(4, envZero), (5, envZero)] :=
  ⟨by decide, by decide,
    (c5_publish_targets emptyPublishState 2 [4, 5, 6] envZero (by decide)
        (by decide)).2.2.2.2 4 5 6 (by decide) (by decide) (by decide)⟩

/-- C9: with a non-empty peer snapshot (persistence always succeeds in the
embedding) Publish replies Ok, and PublishQueued is emitted precisely when at
least one new request was issued. -/
theorem c9_publish_reply_and_queued (st : PublishState) (rf : Nat) (peers : List Nat)
    (e : EncryptedEnvelope) (hne : peers ≠ []) :
    (handle_publish st rf peers e).reply = .ok ()
    ∧ (ReplicationEvent.PublishQueued e.message_id ∈ (handle_publish st rf peers e).events ↔
        (handle_publish st rf peers e).requests ≠ []) := by
  have hempty : ¬ peers.isEmpty = true := by simp [List.isEmpty_iff, hne]
  obtain ⟨extra, h1, h2⟩ := publish_loop_sent e.message_id e (peers.take (max rf 1))
    st.pending_replications st.next_request_id [] false
  constructor
  · unfold handle_publish
    rw [if_neg hempty]
  · unfold handle_publish
    rw [if_neg hempty]
    simp only [h1, h2, List.nil_append, Bool.false_or]
    cases extra with
    | nil => simp
    | cons x xs => simp

/-- C9 witness: a publish into an empty runtime state with one known peer. -/
theorem c9_witness :
    ([4] : List Nat) ≠ [] ∧
      (handle_publish emptyPublishState 3 [4] envZero).reply = .ok ()
    ∧ (ReplicationEvent.PublishQueued envZero.message_id ∈
        (handle_publish emptyPublishState 3 [4] envZero).events ↔
        (handle_publish emptyPublishState 3 [4] envZero).requests ≠ []) :=
  ⟨by decide,
    (c9_publish_reply_and_queued emptyPublishState 3 [4] envZero (by decide)).1,
    (c9_publish_reply_and_queued emptyPublishState 3 [4] envZero (by decide)).2⟩

/-! ## Message pipeline (node/src/messaging/pipeline.rs and mod.rs)

The pipeline owns an optional key pair behind a lock; the lock, the fresh
message UUID, and the wall clock are inputs of the embedding. The PipelineError
type is translated verbatim: it has exactly the four variants of the source,
and no dedicated not-initialized variant.
-/

inductive ReceiptStatus where
  | Queued
  | Sent
  | Delivered
  | Failed
deriving DecidableEq

structure MessageReceipt where
  message_id : Nat
  delivered_to : DeviceId
  delivered_at_ms : Int
  status : ReceiptStatus
deriving DecidableEq

inductive PipelineError where
  | Crypto (msg : String)
  | Overlay (msg : String)
  | Storage (msg : String)
  | InvalidEnvelope (msg : String)
deriving DecidableEq

/-- Whether an error is the Crypto variant of PipelineError. -/
def PipelineError.isCryptoKind : PipelineError → Bool
  | .Crypto _ => true
  | _ => false

structure MessagePipeline where
  local_keypair : Option Nat
  local_device : DeviceId
  queue : List TransportEnvelope
  receipts : List (Nat × List MessageReceipt)
deriving DecidableEq

structure SendMessageRequest where
  conversation_id : ConversationId
  recipient_device : DeviceId
  recipient_cert : Nat
  body : List Nat
deriving DecidableEq

structure SendMessageResponse where
  message_id : Nat
  queued_at_ms : Int
deriving DecidableEq

/-- The receipts entry().or_insert().push of add_receipt. -/
def addReceipt (rs : List (Nat × List MessageReceipt)) (r : MessageReceipt) :
    List (Nat × List MessageReceipt) :=
  if rs.any (fun p => p.1 == r.message_id) then
    rs.map (fun p => if p.1 == r.message_id then (p.1, p.2 ++ [r]) else p)
  else rs ++ [(r.message_id, [r])]

/-- MessagePipeline::send_message: fail if no key pair is installed, else
build the plaintext (fresh id, now), wrap it, enqueue the transport envelope,
record and emit a Queued receipt. -/
def send_message (P : PgpPrims) (st : MessagePipeline) (fresh_id : Nat) (now : Int)
    (request : SendMessageRequest) :
    MessagePipeline × Except PipelineError SendMessageResponse :=
  match st.local_keypair with
  | none => (st, .error (.Crypto "keypair not initialized"))
  | some keypair =>
    let plaintext : PlaintextMessage :=
      { message_id := fresh_id, conversation_id := request.conversation_id,
        sender_device := st.local_device, created_ms := now, body := request.body }
    match PgpEnvelope.from_plaintext P plaintext keypair request.recipient_cert with
    | .error _ => (st, .error (.Crypto "encryption failed"))
    | .ok pgp =>
      let transport := TransportEnvelope.new request.recipient_device pgp
      let receipt : MessageReceipt :=
        { message_id := fresh_id, delivered_to := st.local_device,
          delivered_at_ms := now, status := .Queued }
      ({ st with queue := st.queue ++ [transport],
                 receipts := addReceipt st.receipts receipt },
       .ok { message_id := fresh_id, queued_at_ms := now })

/-- MessagePipeline::receive_envelope: fail if no key pair is installed, else
unwrap the inner PGP envelope and record a Delivered receipt. -/
def receive_envelope (P : PgpPrims) (st : MessagePipeline) (envelope : TransportEnvelope)
    (sender_cert : Nat) (now : Int) :
    MessagePipeline × Except PipelineError PlaintextMessage :=
  match st.local_keypair with
  | none => (st, .error (.Crypto "keypair not initialized"))
  | some keypair =>
    match PgpEnvelope.into_plaintext P envelope.pgp_envelope keypair sender_cert with
    | .error _ => (st, .error (.Crypto "decryption failed"))
    | .ok plaintext =>
      let receipt : MessageReceipt :=
        { message_id := plaintext.message_id, delivered_to := st.local_device,
          delivered_at_ms := now, status := .Delivered }
      ({ st with receipts := addReceipt st.receipts receipt }, .ok plaintext)

/-- An uninitialized pipeline: no key pair installed. -/
def pipelineNoKey : MessagePipeline :=
  { local_keypair := none, local_device := ⟨0⟩, queue := [], receipts := [] }

/-- A trivial send request for concrete runs. -/
def requestZero : SendMessageRequest :=
  { conversation_id := ⟨0⟩, recipient_device := ⟨0⟩, recipient_cert := 0, body := [] }

/-- A trivial transport envelope for concrete runs. -/
def transportZero : TransportEnvelope :=
  TransportEnvelope.new ⟨0⟩
    { message_id := 0, conversation_id := ⟨0⟩, sender_fingerprint := "",
      sender_device := ⟨0⟩, created_ms := 0, encrypted_payload := [] }

/-- C7 (amended): send and receive on a pipeline whose key pair has not been
installed fail with PipelineError::Crypto carrying the message that the
keypair is not initialized, leaving the pipeline unchanged. -/
theorem c7_uninitialized_pipeline (P : PgpPrims) (st : MessagePipeline)
    (fresh_id : Nat) (now : Int) (request : SendMessageRequest)
    (envelope : TransportEnvelope) (sender_cert : Nat)
    (h : st.local_keypair = none) :
    send_message P st fresh_id now request = (st, .error (.Crypto "keypair not initialized"))
    ∧ receive_envelope P st envelope sender_cert now =
        (st, .error (.Crypto "keypair not initialized")) := by
  constructor
  · unfold send_message
    rw [h]
  · unfold receive_envelope
    rw [h]

/-- C7 counterexample: the error returned before set_keypair is the Crypto
variant of PipelineError (there is no NotInitialized variant), so no run
produces an error outside the Crypto kind. -/
theorem c7_counterexample :
    (send_message pgpIdPrims pipelineNoKey 0 0 requestZero).2 =
      .error (.Crypto "keypair not initialized")
    ∧ (PipelineError.Crypto "keypair not initialized").isCryptoKind = true
    ∧ ¬ ∃ e, (send_message pgpIdPrims pipelineNoKey 0 0 requestZero).2 = .error e
        ∧ e.isCryptoKind = false := by
  refine ⟨rfl, rfl, ?_⟩
  rintro ⟨e, he, hk⟩
  have h : (send_message pgpIdPrims pipelineNoKey 0 0 requestZero).2 =
      .error (.Crypto "keypair not initialized") := rfl
  rw [h] at he
  cases he
  cases hk

/-- C7 witness: the amended statement at the concrete uninitialized pipeline. -/
theorem c7_witness :
    pipelineNoKey.local_keypair = none
    ∧ send_message pgpIdPrims pipelineNoKey 0 0 requestZero =
        (pipelineNoKey, .error (.Crypto "keypair not initialized"))
    ∧ receive_envelope pgpIdPrims pipelineNoKey transportZero 0 0 =
        (pipelineNoKey, .error (.Crypto "keypair not initialized")) :=
  ⟨rfl,
    (c7_uninitialized_pipeline pgpIdPrims pipelineNoKey 0 0 requestZero transportZero 0 rfl).1,
    (c7_uninitialized_pipeline pgpIdPrims pipelineNoKey 0 0 requestZero transportZero 0 rfl).2⟩

/-! ## Account store (clients/windows-native/src/account_store.rs)

Argon2 and AES-256-GCM live outside the repository; a PasswordPrims record
carries them, and theorems assume only their documented contracts (a hash
verifies against its password, AEAD decryption inverts encryption). The OS
randomness behind the hash salt, the key-derivation salt and the nonce is
passed in; disk persistence (save_account and load_account) is identity here,
so login receives the account record produced by create_account. Rust string
byte lengths coincide with character counts on the ASCII passwords involved.
-/

structure PasswordPrims where
  hashPassword : String → String → String
  verifyPassword : String → String → Bool
  kdf : String → List Nat → List Nat
  aeadEncrypt : List Nat → List Nat → List Nat → List Nat
  aeadDecrypt : List Nat → List Nat → List Nat → Option (List Nat)

structure Account where
  username : String
  password_hash : String
  encrypted_secret_key : List Nat
  public_key : String
  fingerprint : String
  encryption_nonce : List Nat
  key_derivation_salt : List Nat
deriving DecidableEq

/-- hash_password: Argon2 over the password with a fresh salt. -/
def hash_password (P : PasswordPrims) (os_salt password : String) : String :=
  P.hashPassword password os_salt

/-- verify_password against a stored PHC hash string. -/
def verify_password (P : PasswordPrims) (password hash : String) : Bool :=
  P.verifyPassword password hash

/-- derive_encryption_key: Argon2 hash_password_into producing the AEAD key. -/
def derive_encryption_key (P : PasswordPrims) (password : String) (salt : List Nat) :
    List Nat :=
  P.kdf password salt

/-- encrypt_secret_key: derive the key from a fresh 16-byte salt, seal the
secret under a fresh 12-byte nonce, return ciphertext, nonce and salt in
standard padded base64. -/
def encrypt_secret_key (P : PasswordPrims) (salt nonce secret_key : List Nat)
    (password : String) : List Nat × List Nat × List Nat :=
  let key := derive_encryption_key P password salt
  let ciphertext := P.aeadEncrypt key nonce secret_key
  (b64Encode true ciphertext, b64Encode true nonce, b64Encode true salt)

/-- decrypt_secret_key: decode the three base64 fields, re-derive the key from
the stored salt, open the AEAD box. -/
def decrypt_secret_key (P : PasswordPrims) (encrypted nonce_b64 salt_b64 : List Nat)
    (password : String) : Except String (List Nat) :=
  match b64Decode true encrypted with
  | none => .error "Invalid encrypted data"
  | some ciphertext =>
    match b64Decode true nonce_b64 with
    | none => .error "Invalid nonce"
    | some nonce_bytes =>
      match b64Decode true salt_b64 with
      | none => .error "Invalid salt"
      | some salt =>
        let key := derive_encryption_key P password salt
        match P.aeadDecrypt key nonce_bytes ciphertext with
        | none => .error "Wrong password or corrupted data"
        | some plaintext => .ok plaintext

/-- create_account: reject passwords shorter than 4, hash the password, seal
the secret key, return the record (persistence is outside the embedding). -/
def create_account (P : PasswordPrims) (os_salt : String) (salt nonce : List Nat)
    (username password : String) (secret_key : List Nat)
    (public_key fingerprint : String) : Except String Account :=
  if password.length < 4 then .error "Password must be at least 4 characters"
  else
    let password_hash := hash_password P os_salt password
    let enc := encrypt_secret_key P salt nonce secret_key password
    .ok { username := username, password_hash := password_hash,
          encrypted_secret_key := enc.1, public_key := public_key,
          fingerprint := fingerprint, encryption_nonce := enc.2.1,
          key_derivation_salt := enc.2.2 }

/-- login: verify the password against the stored hash, bail with the wrong
password error on mismatch, else decrypt and return the secret key. -/
def login (P : PasswordPrims) (account : Option Account) (password : String) :
    Except String (Account × List Nat) :=
  match account with
  | none => .error "No account found"
  | some account =>
    if ¬ verify_password P password account.password_hash then .error "Wrong password"
    else
      match decrypt_secret_key P account.encrypted_secret_key account.encryption_nonce
          account.key_derivation_salt password with
      | .error e => .error e
      | .ok secret_key => .ok (account, secret_key)

/-- C6: login with the creating password returns the original secret key, and
login with any password that does not verify against the stored hash fails
with the wrong-password error, under the Argon2 and AES-GCM contracts. -/
theorem c6_login_roundtrip (P : PasswordPrims) (os_salt : String)
    (salt nonce : List Nat) (username password : String) (secret_key : List Nat)
    (public_key fingerprint : String)
    (hlen : 4 ≤ password.length)
    (hsalt : ∀ b ∈ salt, b < 256) (hnonce : ∀ b ∈ nonce, b < 256)
    (hv : P.verifyPassword password (P.hashPassword password os_salt) = true)
    (hd : ∀ key n pt, P.aeadDecrypt key n (P.aeadEncrypt key n pt) = some pt)
    (hct : ∀ b ∈ P.aeadEncrypt (P.kdf password salt) nonce secret_key, b < 256) :
    ∃ acc,
      create_account P os_salt salt nonce username password secret_key
          public_key fingerprint = .ok acc
      ∧ login P (some acc) password = .ok (acc, secret_key)
      ∧ ∀ other, P.verifyPassword other acc.password_hash = false →
          login P (some acc) other = .error "Wrong password" := by
  refine ⟨⟨username, P.hashPassword password os_salt,
      b64Encode true (P.aeadEncrypt (P.kdf password salt) nonce secret_key),
      public_key, fingerprint, b64Encode true nonce, b64Encode true salt⟩, ?_, ?_, ?_⟩
  · unfold create_account encrypt_secret_key derive_encryption_key hash_password
    rw [if_neg (by omega)]
  · simp only [login, verify_password]
    rw [if_neg (by simp [hv])]
    simp only [decrypt_secret_key, derive_encryption_key,
      b64Decode_b64Encode true _ hct, b64Decode_b64Encode true _ hnonce,
      b64Decode_b64Encode true _ hsalt, hd]
  · intro other hother
    simp only [login, verify_password]
    rw [if_pos (by simp only [hother]; simp)]

def toyPasswordPrims : PasswordPrims :=
  { hashPassword := fun pw _ => pw
    verifyPassword := fun pw h => pw == h
    kdf := fun _ _ => []
    aeadEncrypt := fun _ _ pt => pt
    aeadDecrypt := fun _ _ ct => some ct }

/-- C6 witness: the round trip at a concrete account and a toy instantiation
of the password primitives satisfying the contracts. -/
theorem c6_witness :
    4 ≤ "abcd".length
    ∧ toyPasswordPrims.verifyPassword "abcd"
        (toyPasswordPrims.hashPassword "abcd" "s") = true
    ∧ ∃ acc,
        create_account toyPasswordPrims "s" (List.replicate 16 0) (List.replicate 12 0)
            "u" "abcd" [1, 2, 3] "pk" "fp" = .ok acc
        ∧ login toyPasswordPrims (some acc) "abcd" = .ok (acc, [1, 2, 3])
        ∧ ∀ other, toyPasswordPrims.verifyPassword other acc.password_hash = false →
            login toyPasswordPrims (some acc) other = .error "Wrong password" :=
  ⟨by decide, by decide,
    c6_login_roundtrip toyPasswordPrims "s" (List.replicate 16 0) (List.replicate 12 0)
      "u" "abcd" [1, 2, 3] "pk" "fp" (by decide) (by decide) (by decide) (by decide)
      (fun _ _ _ => rfl) (by decide)⟩

section ScratchEvals
end ScratchEvals


end CryptoChat


